import Mathlib

/-!
Verification of the templet templating engine.

This file gives a shallow embedding of the repository's parser
(`src/parse.rs`), its reflection-based tree-walking renderer
(`src/reflect_render.rs` together with `src/templates.rs` and
`src/template.rs`), its bytecode compiler and stack-machine VM
(`src/compiler.rs`, `src/vm.rs`), and its `valuable`-based scope-stack
renderer (`src/render.rs`), and proves the frozen claims about them.
-/

namespace Templet

/-! ## Basic characters and strings

Template sources contain brace characters; they are written here through
named constants (`lbrace`, `rbrace`) and hex escapes in string literals. -/

def lbrace : Char := Char.ofNat 123

def rbrace : Char := Char.ofNat 125

def bslash : Char := Char.ofNat 92

/-- Concatenation of a list of strings in order (the text written to the
output sink by a sequence of writes). -/
def concatAll : List String → String
  | [] => ""
  | s :: rest => s ++ concatAll rest

/-! ## HTML escaping

Model of the `v_htmlescape::escape` function used by
`reflect_render.rs` and `render.rs` (an external crate: the behaviour is
pinned by the repository's tests `render_escaped` and
`escapes_variable`, which show the conventional HTML-attribute-safe set:
quote, ampersand, apostrophe, slash, less-than, greater-than). -/

/-- Per-character HTML escape of `v_htmlescape`. -/
def escapeChar (c : Char) : String :=
  if c = '"' then "&quot;"
  else if c = '&' then "&amp;"
  else if c = '\'' then "&#x27;"
  else if c = '/' then "&#x2f;"
  else if c = '<' then "&lt;"
  else if c = '>' then "&gt;"
  else String.singleton c

/-- HTML-escape a whole string: every character is escaped independently. -/
def escapeHtml (s : String) : String :=
  concatAll (s.data.map escapeChar)

/-! ## Kebab-case conversion

Model of `convert_case`'s `to_case(Case::Kebab)` as used by
`reflect_render.rs` on enum variant names (an external crate; modelled
for delimiter-free camel-case ASCII identifiers, the shape of Rust enum
variant names, with the crate's default word boundaries: a word starts at
a lower-or-digit to upper transition and at the last upper of an
acronym run; words are lowercased and joined with hyphens). -/

def kebabChars : Option Char → List Char → List Char
  | _, [] => []
  | prev, c :: rest =>
    let isAcronymEnd : Bool :=
      match rest with
      | r :: _ => r.isLower
      | [] => false
    let boundary : Bool :=
      match prev with
      | none => false
      | some p =>
        ((p.isLower || p.isDigit) && c.isUpper) ||
          (p.isUpper && c.isUpper && isAcronymEnd)
    (if boundary then ['-', c.toLower] else [c.toLower]) ++ kebabChars (some c) rest

/-- Kebab-case a variant name, e.g. mapping camel-case FooBar to foo-bar. -/
def toKebab (s : String) : String :=
  String.mk (kebabChars none s.data)

/-! ## The template AST of `src/parse.rs` -/

/-- `Field` of `src/parse.rs`: one selector of a dotted access path.
`Index` is the bracketed list/array index, `Nth` the bare-numeral
tuple-field index, `Named` a named field. -/
inductive RField where
  | index (i : Nat)
  | nth (n : Nat)
  | named (s : String)
deriving DecidableEq, Repr

/-- `Access` of `src/parse.rs`: a variant selector, a dotted field path,
or the current value. -/
inductive Access where
  | variant (s : String)
  | path (fields : List RField)
  | this
deriving DecidableEq, Repr

/-- `Part` of `src/parse.rs`: a node of the template AST.  The Rust
names `Variable`, `Section` and `Include` are Lean keywords, hence the
primed constructor names. -/
inductive Part where
  | text (s : String)
  | variable' (a : Access)
  | section' (a : Access) (parts : List Part)
  | invertedSection (a : Access) (parts : List Part)
  | include' (s : String)
  | comment
deriving Repr

/-! ## The parser of `src/parse.rs`

The nom combinators are modelled directly on `List Char`: a parser
returns `none` for a nom `Err` and `some (value, rest)` on success.
`nom_unicode`'s character classes are modelled by Lean's ASCII
classifiers (all claim-relevant inputs are ASCII). -/

/-- Does `pat` occur as a prefix of `l`? (`nom::bytes::complete::tag`). -/
def startsList : List Char → List Char → Bool
  | [], _ => true
  | _ :: _, [] => false
  | p :: ps, c :: cs => p = c && startsList ps cs

/-- `tag(pat)`: consume an exact prefix. -/
def tagP (pat : List Char) (input : List Char) : Option (Unit × List Char) :=
  if startsList pat input then some ((), input.drop pat.length) else none

/-- `space0`: consume zero or more spaces and tabs. -/
def space0 (input : List Char) : List Char :=
  input.dropWhile (fun c => c = ' ' || c = '\t')

/-- Index of the first occurrence of `pat` in `l`, if any
(the search primitive behind `take_until`). -/
def findSub (pat : List Char) : List Char → Option Nat
  | [] => if startsList pat [] then some 0 else none
  | c :: rest =>
    if startsList pat (c :: rest) then some 0
    else (findSub pat rest).map (· + 1)

/-- `take_until(pat)`: the input up to the first occurrence of `pat`
(failing when `pat` does not occur). -/
def takeUntil (pat : List Char) (input : List Char) :
    Option (List Char × List Char) :=
  (findSub pat input).map fun i => (input.take i, input.drop i)

/-- `take_until1(pat)`: as `take_until` but failing on an empty match. -/
def takeUntil1 (pat : List Char) (input : List Char) :
    Option (List Char × List Char) :=
  match findSub pat input with
  | some 0 => none
  | some i => some (input.take i, input.drop i)
  | none => none

/-- `is_not(set)`: consume one or more characters outside `set`. -/
def isNot1 (bad : List Char) (input : List Char) :
    Option (List Char × List Char) :=
  let taken := input.takeWhile (fun c => ¬ bad.contains c)
  if taken.isEmpty then none else some (taken, input.drop taken.length)

/-- The opening braces of a tag. -/
def obrace2 : List Char := [lbrace, lbrace]

/-- The closing braces of a tag. -/
def cbrace2 : List Char := [rbrace, rbrace]

/-- The comment / escape opener backslash-brace-brace. -/
def commentOpen : List Char := [bslash, lbrace, lbrace]

/-- The section opener. -/
def sectionOpen : List Char := obrace2 ++ ['#']

/-- The inverted-section opener. -/
def invertedOpen : List Char := obrace2 ++ ['^']

/-- The include (partial) opener. -/
def includeOpen : List Char := obrace2 ++ ['>']

/-- The close-tag opener. -/
def closeOpen : List Char := obrace2 ++ ['/']

/-- `nom_unicode::complete::upper1`: one or more uppercase letters,
maximal munch. -/
def upper1 (input : List Char) : Option (List Char × List Char) :=
  let taken := input.takeWhile Char.isUpper
  if taken.isEmpty then none else some (taken, input.drop taken.length)

/-- `nom_unicode::complete::alphanumeric1`: one or more alphanumerics,
maximal munch. -/
def alphanumeric1 (input : List Char) : Option (List Char × List Char) :=
  let taken := input.takeWhile Char.isAlphanum
  if taken.isEmpty then none else some (taken, input.drop taken.length)

/-- `access_this`: a bare dot. -/
def accessThis (input : List Char) : Option (Access × List Char) :=
  (tagP ['.'] input).map fun (_, rest) => (Access.this, rest)

/-- `access_variant`: `recognize(pair(upper1, alphanumeric1))`, an
uppercase run followed by a non-empty alphanumeric run. -/
def accessVariant (input : List Char) : Option (Access × List Char) :=
  match upper1 input with
  | none => none
  | some (u, r1) =>
    match alphanumeric1 r1 with
    | none => none
    | some (a, r2) => some (Access.variant (String.mk (u ++ a)), r2)

/-- `PathPart` of `src/parse.rs`: one raw step of `access_path`. -/
inductive PathPart where
  | index (i : Nat)
  | nth (n : Nat)
  | named (s : String)
  | dot
deriving Repr

/-- Decimal numeral: one or more ASCII digits, maximal munch
(`nom::character::complete::u128`; the `as usize` cast is the identity
on the modelled values). -/
def digits1 (input : List Char) : Option (Nat × List Char) :=
  let taken := input.takeWhile Char.isDigit
  if taken.isEmpty then none
  else some (taken.foldl (fun acc c => acc * 10 + (c.toNat - 48)) 0,
             input.drop taken.length)

/-- `field_dot`. -/
def fieldDot (input : List Char) : Option (PathPart × List Char) :=
  (tagP ['.'] input).map fun (_, rest) => (PathPart.dot, rest)

/-- `field_index`: a bracketed numeral. -/
def fieldIndex (input : List Char) : Option (PathPart × List Char) :=
  match tagP ['['] input with
  | none => none
  | some (_, r1) =>
    match digits1 r1 with
    | none => none
    | some (n, r2) =>
      match tagP [']'] r2 with
      | none => none
      | some (_, r3) => some (PathPart.index n, r3)

/-- `field_nth`: a bare numeral. -/
def fieldNth (input : List Char) : Option (PathPart × List Char) :=
  (digits1 input).map fun (n, rest) => (PathPart.nth n, rest)

/-- `field_identifier`: an identifier starting with a letter or
underscore, continuing with alphanumerics or underscores (the
`recognize(pair(alt((alpha1, tag("_"))), many0_count(...)))` combination
recognises exactly the maximal such run). -/
def fieldIdentifier (input : List Char) : Option (PathPart × List Char) :=
  match input with
  | [] => none
  | c :: _ =>
    if c.isAlpha || c = '_' then
      let taken := input.takeWhile (fun d => d.isAlphanum || d = '_')
      some (PathPart.named (String.mk taken), input.drop taken.length)
    else none

/-- `path_part`: the alternatives in source order. -/
def pathPart (input : List Char) : Option (PathPart × List Char) :=
  fieldDot input <|> fieldIndex input <|> fieldNth input <|> fieldIdentifier input

/-- Push one `PathPart` onto the accumulated field list (the fold body of
`access_path`; `Dot` separators contribute nothing). -/
def pushPathPart (acc : List RField) : PathPart → List RField
  | PathPart.index i => acc ++ [RField.index i]
  | PathPart.nth n => acc ++ [RField.nth n]
  | PathPart.named s => acc ++ [RField.named s]
  | PathPart.dot => acc

/-- The loop of `fold_many1(path_part, ...)` after its first step; the
fuel starts at the input length, and every successful `path_part`
consumes at least one character. -/
def foldPathParts : Nat → List Char → List RField → (List RField × List Char)
  | 0, input, acc => (acc, input)
  | fuel + 1, input, acc =>
    match pathPart input with
    | none => (acc, input)
    | some (pp, rest) =>
      if rest.length < input.length then
        foldPathParts fuel rest (pushPathPart acc pp)
      else (acc, input)

/-- `access_path`: `fold_many1(path_part, Vec::new, push)`. -/
def accessPath (input : List Char) : Option (Access × List Char) :=
  match pathPart input with
  | none => none
  | some (pp, rest) =>
    let (fields, rest') := foldPathParts rest.length rest (pushPathPart [] pp)
    some (Access.path fields, rest')

/-- `access`: the alternatives in source order. -/
def access (input : List Char) : Option (Access × List Char) :=
  accessThis input <|> accessVariant input <|> accessPath input

/-- `delimited(space0, access, space0)`. -/
def spacedAccess (input : List Char) : Option (Access × List Char) :=
  match access (space0 input) with
  | none => none
  | some (a, rest) => some (a, space0 rest)

/-- `start_tag(open)`: the opener, a spaced access path, and the closing
braces. -/
def startTag (opener : List Char) (input : List Char) :
    Option (Access × List Char) :=
  match tagP opener input with
  | none => none
  | some (_, r1) =>
    match spacedAccess r1 with
    | none => none
    | some (a, r2) =>
      match tagP cbrace2 r2 with
      | none => none
      | some (_, r3) => some (a, r3)

/-- `tag_end`: a close tag with its access path. -/
def tagEnd (input : List Char) : Option (Access × List Char) :=
  startTag closeOpen input

/-- `parse_comment`: backslash-brace-brace, content free of closing
braces, brace-brace. -/
def parseComment (input : List Char) : Option (Part × List Char) :=
  match tagP commentOpen input with
  | none => none
  | some (_, r1) =>
    match isNot1 [rbrace] r1 with
    | none => none
    | some (_, r2) =>
      match tagP cbrace2 r2 with
      | none => none
      | some (_, r3) => some (Part.comment, r3)

/-- `parse_variable`. -/
def parseVariable (input : List Char) : Option (Part × List Char) :=
  match tagP obrace2 input with
  | none => none
  | some (_, r1) =>
    match spacedAccess r1 with
    | none => none
    | some (a, r2) =>
      match tagP cbrace2 r2 with
      | none => none
      | some (_, r3) => some (Part.variable' a, r3)

/-- `file_path`: a double-quoted string permitting backslash-escaped
quotes (`escaped(is_not("\"\\"), '\\', tag("\""))`); the returned text is
the recognised span between the quotes, escapes included. -/
def escapedSpan : Nat → List Char → (List Char × List Char)
  | 0, input => ([], input)
  | fuel + 1, input =>
    match isNot1 ['"', bslash] input with
    | some (chunk, rest) =>
      let (more, rest') := escapedSpan fuel rest
      (chunk ++ more, rest')
    | none =>
      match input with
      | c :: d :: rest =>
        if c = bslash && d = '"' then
          let (more, rest') := escapedSpan fuel rest
          (c :: d :: more, rest')
        else ([], input)
      | _ => ([], input)

/-- `file_path`: quoted, escape-permitting path of an include tag. -/
def filePath (input : List Char) : Option (List Char × List Char) :=
  match tagP ['"'] input with
  | none => none
  | some (_, r1) =>
    let (span, r2) := escapedSpan r1.length r1
    match tagP ['"'] r2 with
    | none => none
    | some (_, r3) => some (span, r3)

/-- `parse_include`. -/
def parseInclude (input : List Char) : Option (Part × List Char) :=
  match tagP includeOpen input with
  | none => none
  | some (_, r1) =>
    match filePath (space0 r1) with
    | none => none
    | some (p, r2) =>
      match tagP cbrace2 (space0 r2) with
      | none => none
      | some (_, r3) => some (Part.include' (String.mk p), r3)

/-- `parse_text`: a run up to the next comment opener (preferred when one
occurs anywhere later) or tag opener, or the whole rest; an empty run is
a failure. -/
def parseText (input : List Char) : Option (Part × List Char) :=
  match takeUntil1 commentOpen input <|> takeUntil obrace2 input <|>
      some (input, ([] : List Char)) with
  | none => none
  | some (t, rest) =>
    if t.isEmpty then none else some (Part.text (String.mk t), rest)

mutual

/-- `parse_parts`: `many0` over the alternatives, in source order.  The
fuel bounds the mutual recursion (one unit per loop iteration and per
grammar layer; every iteration consumes at least one character and every
section nesting at least five, so three units per input character
suffice at the entry point); a successful alternative that consumed
nothing would stop the loop (this case is unreachable: every alternative
consumes at least one character). -/
def many0Parts : Nat → List Char → (List Part × List Char)
  | 0, input => ([], input)
  | fuel + 1, input =>
    match parsePartF fuel input with
    | none => ([], input)
    | some (p, rest) =>
      if rest.length < input.length then
        let (ps, rest') := many0Parts fuel rest
        (p :: ps, rest')
      else ([], input)

/-- One alternative of `parse_parts`, in source order: comment, section,
inverted section, include, variable, text. -/
def parsePartF : Nat → List Char → Option (Part × List Char)
  | 0, _ => none
  | fuel + 1, input =>
    parseComment input <|> parseSectionF fuel input <|>
      parseInvertedSectionF fuel input <|> parseInclude input <|>
      parseVariable input <|> parseText input

/-- `parse_section`: open tag, recursively parsed body, close tag; a
close path different from the open path is an error (which the caller
backtracks over). -/
def parseSectionF : Nat → List Char → Option (Part × List Char)
  | 0, _ => none
  | fuel + 1, input =>
    match startTag sectionOpen input with
    | none => none
    | some (startField, r1) =>
      let (contents, r2) := many0Parts fuel r1
      match tagEnd r2 with
      | none => none
      | some (endField, r3) =>
        if startField ≠ endField then none
        else some (Part.section' startField contents, r3)

/-- `parse_inverted_section`: as `parse_section` with the inverted
opener. -/
def parseInvertedSectionF : Nat → List Char → Option (Part × List Char)
  | 0, _ => none
  | fuel + 1, input =>
    match startTag invertedOpen input with
    | none => none
    | some (startField, r1) =>
      let (contents, r2) := many0Parts fuel r1
      match tagEnd r2 with
      | none => none
      | some (endField, r3) =>
        if startField ≠ endField then none
        else some (Part.invertedSection startField contents, r3)

end

/-- `parse` of `src/parse.rs`: run `parse_parts` and keep only the parsed
prefix — `tokens.map(|(_, tokens)| tokens).unwrap()` discards the
unconsumed remainder, and the `unwrap` never panics because `many0`
cannot fail. -/
def templetParse (s : String) : List Part :=
  (many0Parts (3 * s.length + 3) s.data).1

/-! ## The reflected value model of `bevy_reflect`

`src/reflect_render.rs` walks values through `bevy_reflect`'s
`ReflectRef` classification.  `RValue` models a reflected value: scalars
(`Value` kind), structs, tuple structs, tuples, lists, arrays, maps and
enums.  `vInt` stands for all the integer families `u8..u128`,
`usize`, `i8..i128`, `isize`, whose thirteen `write!("{}")` branches in
`render_value`/`write_value` are identical decimal displays; float
scalars are omitted (no claim concerns them).  Composite values carry
their Rust `type_name` string, which `reflect_render.rs` inspects for
`Option` detection and prints in its unsupported-value placeholder. -/

mutual

/-- The shape of an enum's active variant (`bevy_reflect::VariantType`):
unit, tuple or struct. -/
inductive RVariant where
  | unit
  | tuple (fields : List RValue)
  | structV (fields : List (String × RValue))

/-- A `bevy_reflect` value as classified by `ReflectRef`. -/
inductive RValue where
  | vBool (b : Bool)
  | vInt (n : Int)
  | vStr (s : String)
  | vUnescaped (s : String)
  | vStruct (tyName : String) (fields : List (String × RValue))
  | vTupleStruct (tyName : String) (fields : List RValue)
  | vTuple (tyName : String) (fields : List RValue)
  | vList (tyName : String) (items : List RValue)
  | vArray (tyName : String) (items : List RValue)
  | vMap (tyName : String) (entries : List (RValue × RValue))
  | vEnum (tyName : String) (variantName : String) (shape : RVariant)
end

/-- The `type_name` reported for a value (the composites carry theirs;
the scalar names are fixed by Rust, with `vInt` standing for the integer
families). -/
def RValue.typeName : RValue → String
  | .vBool _ => "bool"
  | .vInt _ => "i64"
  | .vStr _ => "alloc::string::String"
  | .vUnescaped _ => "templet::reflect_render::Unescaped"
  | .vStruct ty _ => ty
  | .vTupleStruct ty _ => ty
  | .vTuple ty _ => ty
  | .vList ty _ => ty
  | .vArray ty _ => ty
  | .vMap ty _ => ty
  | .vEnum ty _ _ => ty

/-- The option-type prefix tested by `is_option`. -/
def optionPrefix : String := "core::option::Option<"

/-- `is_option`: the enum's type name starts with the `Option` prefix. -/
def isOption (tyName : String) : Bool :=
  startsList optionPrefix.data tyName.data

/-- `option_value`: the payload of a `Some`, if the variant is `Some`
and has a field (matches `enm.field_at(0)` on the tuple variant). -/
def optionValue (variantName : String) : RVariant → Option RValue
  | .tuple (x :: _) => if variantName = "Some" then some x else none
  | _ => none

/-- Assoc lookup by field name, first match (`Struct::field` /
`Enum::field`). -/
def lookupNamed (name : String) : List (String × RValue) → Option RValue
  | [] => none
  | (k, v) :: rest => if k = name then some v else lookupNamed name rest

/-- `get_field` of `src/reflect_render.rs`: one access step.  The
`is_option` arm comes first, unwrapping transparently; then list/array
indexing, tuple-family positional access, and named access on structs
and struct-variant enums; everything else is absence. -/
def getField : RValue → RField → Option RValue
  | .vEnum ty vn shape, f =>
    if isOption ty then
      -- `option_value(enm).and_then(|value| get_field(value, field))`,
      -- with the `Some` payload destructured for structural recursion
      match vn, shape with
      | "Some", .tuple (x :: _) => getField x f
      | _, _ => none
    else
      match f, shape with
      | .nth n, .tuple fs => fs.get? n
      | .named name, .structV fs => lookupNamed name fs
      | _, _ => none
  | .vList _ items, .index i => items.get? i
  | .vArray _ items, .index i => items.get? i
  | .vTupleStruct _ fs, .nth n => fs.get? n
  | .vUnescaped s, .nth n => ([RValue.vStr s] : List RValue).get? n
  | .vTuple _ fs, .nth n => fs.get? n
  | .vStruct _ fs, .named name => lookupNamed name fs
  | _, _ => none

/-- `get_fields`: fold `get_field` over the path, failing at the first
absent step. -/
def getFields : RValue → List RField → Option RValue
  | v, [] => some v
  | v, f :: rest =>
    match getField v f with
    | some v' => getFields v' rest
    | none => none

/-- `get_path` of `src/reflect_render.rs`: resolve an `Access` against
the current value. -/
def getPath (v : RValue) : Access → Option RValue
  | .variant name =>
    match v with
    | .vEnum ty vn shape =>
      if isOption ty then optionValue vn shape
      else if vn = name then some v
      else none
    | _ => none
  | .path fields => getFields v fields
  | .this =>
    match v with
    | .vEnum ty vn shape =>
      if isOption ty then optionValue vn shape else some v
    | _ => some v

/-- The placeholder `render_value` writes for a value with no scalar
rendering. -/
def unsupportedPlaceholder (tyName : String) : String :=
  "UNSUPPORTED_VARIABLE_VALUE(" ++ tyName ++ ")"

/-- `render_value` of `src/reflect_render.rs`: the text written for a
resolved `Variable` value.  Scalar downcasts first (bools, the integer
families, strings HTML-escaped, `Unescaped` verbatim), then the
`reflect_ref` cases: transparent `Option` unwrap (a `None` writes
nothing), unit enum variants as kebab-case variant names, single-field
tuple variants and tuple structs unwrapped, and everything else the
placeholder naming the value's type.  The Rust function's only error
source is the output sink, so to a string buffer it always succeeds and
the model returns the written text directly. -/
def renderValue : RValue → String
  | .vBool b => if b then "true" else "false"
  | .vInt n => toString n
  | .vStr s => escapeHtml s
  | .vUnescaped s => s
  | .vEnum ty vn shape =>
    if isOption ty then
      -- `if let Some(value) = option_value(enm) { render_value(value) }`,
      -- with the `Some` payload destructured for structural recursion
      match shape with
      | .unit => ""
      | .structV _ => ""
      | .tuple [] => ""
      | .tuple (x :: _) => if vn = "Some" then renderValue x else ""
    else
      match shape with
      | .unit => toKebab vn
      | .tuple [] => unsupportedPlaceholder ty
      | .tuple [x] => renderValue x
      | .tuple (_ :: _ :: _) => unsupportedPlaceholder ty
      | .structV _ => unsupportedPlaceholder ty
  | .vTupleStruct ty [] => unsupportedPlaceholder ty
  | .vTupleStruct _ [x] => renderValue x
  | .vTupleStruct ty (_ :: _ :: _) => unsupportedPlaceholder ty
  | .vStruct ty _ => unsupportedPlaceholder ty
  | .vTuple ty _ => unsupportedPlaceholder ty
  | .vList ty _ => unsupportedPlaceholder ty
  | .vArray ty _ => unsupportedPlaceholder ty
  | .vMap ty _ => unsupportedPlaceholder ty

/-- A parsed template (`src/template.rs`): its part list. -/
structure Template where
  parts : List Part

/-- The registry's name-to-template map (`HashMap<String, Template>`),
modelled as an association list with first-match lookup. -/
def Templates := List (String × Template)

/-- Registry lookup (`HashMap::get`). -/
def lookupTemplate (name : String) : Templates → Option Template
  | ([] : List (String × Template)) => none
  | (k, t) :: rest => if k = name then some t else lookupTemplate name rest

/-- The per-element iteration of a sequence-like section (`for item in
list.iter() { self.render_parts(parts, item)? }`): the body renderer is
applied once per element in order, the written text concatenating and
the first failure propagating. -/
def renderEachGo (f : RValue → Option String) : List RValue → Option String
  | [] => some ""
  | item :: items => do
    let s ← f item
    let t ← renderEachGo f items
    pure (s ++ t)

mutual

/-- `render_parts` of `src/reflect_render.rs`: render a part list
against the current data value, concatenating the written text.
Partial (`Include`) expansion — the one unbounded recursion, through the
template map — is the `expand` capability, supplied by `expandInclude`
below. -/
def renderPartsGo (expand : String → RValue → Option String) :
    List Part → RValue → Option String
  | [], _ => some ""
  | p :: rest, data => do
    let s ← renderPartGo expand p data
    let t ← renderPartsGo expand rest data
    pure (s ++ t)

/-- One `Part` of the `render_parts` loop. -/
def renderPartGo (expand : String → RValue → Option String) :
    Part → RValue → Option String
  | .text t, _ => some t
  | .variable' a, data =>
    match getPath data a with
    | some v => some (renderValue v)
    | none => some ""
  | .section' a body, data =>
    match getPath data a with
    | none => some ""
    | some v =>
      match v with
      | .vList _ items => renderEachGo (fun item => renderPartsGo expand body item) items
      | .vTupleStruct _ fs => renderEachGo (fun item => renderPartsGo expand body item) fs
      | .vUnescaped s => renderEachGo (fun item => renderPartsGo expand body item) [RValue.vStr s]
      | .vTuple _ fs => renderEachGo (fun item => renderPartsGo expand body item) fs
      | .vArray _ items => renderEachGo (fun item => renderPartsGo expand body item) items
      | .vBool b => if b then renderPartsGo expand body v else some ""
      | .vStr s => if s = "" then some "" else renderPartsGo expand body v
      | .vEnum ty vn shape =>
        if isOption ty then
          match optionValue vn shape with
          | some inner => renderPartsGo expand body inner
          | none => some ""
        else renderPartsGo expand body v
      | _ => renderPartsGo expand body v
  | .invertedSection a body, data =>
    match getPath data a with
    | none => renderPartsGo expand body data
    | some (.vList _ []) => renderPartsGo expand body data
    | some (.vArray _ []) => renderPartsGo expand body data
    | some (.vEnum ty vn _) =>
      if isOption ty && vn = "None" then renderPartsGo expand body data
      else some ""
    | some (.vBool b) =>
      if b then some "" else renderPartsGo expand body data
    | some (.vStr s) =>
      if s = "" then renderPartsGo expand body data else some ""
    | some _ => some ""
  | .include' name, data => expand name data
  | .comment, _ => some ""

end

/-- The `Part::Include` arm of `render_parts`: look the partial up in
the registry (an unknown name renders nothing) and render its parts
against the unchanged data.  The fuel bounds the include chain, the one
source of unbounded recursion (the registry does not detect reference
cycles); `none` means the fuel ran out. -/
def expandInclude (tpls : Templates) : Nat → String → RValue → Option String
  | 0, _, _ => none
  | fuel + 1, name, data =>
    match lookupTemplate name tpls with
    | some t => renderPartsGo (expandInclude tpls fuel) t.parts data
    | none => some ""

/-- `render_parts` with the include chain bounded by `fuel`. -/
def renderParts (tpls : Templates) (fuel : Nat) (parts : List Part)
    (data : RValue) : Option String :=
  renderPartsGo (expandInclude tpls fuel) parts data

/-- One part, include chains bounded by `fuel`. -/
def renderPart (tpls : Templates) (fuel : Nat) (p : Part) (data : RValue) :
    Option String :=
  renderPartGo (expandInclude tpls fuel) p data

/-- The sequence-section iteration, include chains bounded by `fuel`. -/
def renderEach (tpls : Templates) (fuel : Nat) (body : List Part)
    (items : List RValue) : Option String :=
  renderEachGo (fun item => renderParts tpls fuel body item) items

/-- `Renderer::render` of `src/reflect_render.rs` (also the body of the
`Templates::render` and `Templates::render_to_string` entry points of
`src/templates.rs`): look the template up by name and render its parts;
an unknown name renders nothing and succeeds. -/
def render (tpls : Templates) (fuel : Nat) (name : String) (data : RValue) :
    Option String :=
  match lookupTemplate name tpls with
  | some t => renderParts tpls fuel t.parts data
  | none => some ""

/-! ## The bytecode compiler (`src/compiler.rs`) and VM (`src/vm.rs`)

The compiler emits a flat byte stream of opcodes with length-prefixed
UTF-8 strings; the model works at the instruction level: one `Instr` per
opcode together with its immediate string, so a cursor position counts
instructions instead of bytes (the byte-level length prefixes and the
unchecked UTF-8 decoding of `read_str` are serialisation detail). -/

/-- Modelled from the spec: `crate::Expr`, the input AST of the bytecode
backend, is declared outside `src/` (only `compiler.rs` and `vm.rs`
consume it); its variants are fixed by `compiler.rs`'s match: a literal
string, a variable reference, and a section with a variable and a body
(§9's push-string / push-path / write / enter-section instruction
source). `Section` is a Lean keyword, hence the primed name. -/
inductive Expr where
  | string (s : String)
  | var (name : String)
  | section' (varName : String) (body : List Expr)

/-- One VM opcode with its immediate operand (`OpCode` plus the
length-prefixed string that follows it in the byte stream). -/
inductive Instr where
  | pushStr (s : String)
  | pushVar (path : String)
  | startSection (path : String)
  | endSection
  | writeVar
deriving DecidableEq, Repr

mutual

/-- `Compiler::compile_expr`: a string becomes `PushStr`; a variable
becomes `PushVar` then `WriteVar`; a section becomes `StartSection`,
its compiled body, then `EndSection`. -/
def compileExpr : Expr → List Instr
  | .string s => [Instr.pushStr s]
  | .var name => [Instr.pushVar name, Instr.writeVar]
  | .section' v body => Instr.startSection v :: compileExprs body ++ [Instr.endSection]

/-- `Compiler::compile`: the concatenation of the compiled expressions. -/
def compileExprs : List Expr → List Instr
  | [] => []
  | e :: rest => compileExpr e ++ compileExprs rest

end

/-- The VM's error type (`vm::Error`; the `Io` case cannot arise when
writing to a string buffer). -/
inductive VmError where
  | ioError
  | invalidOpCode (b : Nat)
  | invalidField (path : String)
  | unsupportedType (tyName : String)
  | unsupportedSectionVar (tyName : String)
deriving DecidableEq, Repr

/-- One step of `bevy_reflect`'s string-path resolution
(`GetPath::reflect_path`, an external crate): a dot-separated segment of
digits selects a positional field, any other segment a named field;
the fragment the VM's templates exercise. -/
def reflectPathStep (v : RValue) (seg : String) : Option RValue :=
  if ¬ seg.data.isEmpty ∧ seg.data.all Char.isDigit then
    let n := seg.data.foldl (fun acc c => acc * 10 + (c.toNat - 48)) 0
    match v with
    | .vTupleStruct _ fs => fs.get? n
    | .vTuple _ fs => fs.get? n
    | .vEnum _ _ (.tuple fs) => fs.get? n
    | _ => none
  else
    match v with
    | .vStruct _ fs => lookupNamed seg fs
    | .vEnum _ _ (.structV fs) => lookupNamed seg fs
    | _ => none

/-- Split a path string at the dots (the segment structure of
`bevy_reflect` path strings). -/
def splitSegsGo : List Char → List Char → List String
  | [], acc => [String.mk acc.reverse]
  | c :: rest, acc =>
    if c = '.' then String.mk acc.reverse :: splitSegsGo rest []
    else splitSegsGo rest (c :: acc)

/-- The dot-separated segments of a path string. -/
def splitSegs (path : String) : List String :=
  splitSegsGo path.data []

/-- `reflect_path` over a whole dotted path; a failed step is the
`InvalidField` error (`From<ReflectPathError> for Error`). -/
def reflectPath (v : RValue) (path : String) : Except VmError RValue :=
  let rec go : RValue → List String → Option RValue
    | v', [] => some v'
    | v', seg :: rest =>
      match reflectPathStep v' seg with
      | some v'' => go v'' rest
      | none => none
  match go v (splitSegs path) with
  | some v' => .ok v'
  | none => .error (.invalidField path)

/-- `write_value` of `src/vm.rs`: strings are appended raw (no HTML
escaping), bools and the integer families in decimal; an enum whose type
is `Option` writes its first variant field when present (`field_at(0)`,
with no variant-name check) and nothing otherwise; any other enum and
every other reflect kind is the `UnsupportedType` error, with nothing
written. -/
def vmWriteValue (buf : String) : RValue → Except VmError String
  | .vStr s => .ok (buf ++ s)
  | .vBool b => .ok (buf ++ (if b then "true" else "false"))
  | .vInt n => .ok (buf ++ toString n)
  | .vEnum ty _ shape =>
    if isOption ty then
      match shape with
      | .unit => .ok buf
      | .tuple [] => .ok buf
      | .tuple (x :: _) => vmWriteValue buf x
      | .structV [] => .ok buf
      | .structV ((_, x) :: _) => vmWriteValue buf x
    else .error (.unsupportedType ty)
  | .vUnescaped _ =>
    .error (.unsupportedType "templet::reflect_render::Unescaped")
  | .vStruct ty _ => .error (.unsupportedType ty)
  | .vTupleStruct ty _ => .error (.unsupportedType ty)
  | .vTuple ty _ => .error (.unsupportedType ty)
  | .vList ty _ => .error (.unsupportedType ty)
  | .vArray ty _ => .error (.unsupportedType ty)
  | .vMap ty _ => .error (.unsupportedType ty)

/-- The cursor walk of `execute_skip`, one opcode at a time over the
remaining instructions. -/
def vmSkipGo : List Instr → Nat → Nat
  | [], pc => pc
  | _ :: rest, pc => vmSkipGo rest (pc + 1)

/-- `execute_skip` of `src/vm.rs`: because `depth` is re-initialised to
zero on every loop iteration, the `EndSection` arm decrements it to
minus one and never returns early, so the skip consumes the remaining
instruction stream to its end and the cursor lands there. -/
def vmSkip (prog : List Instr) (pc : Nat) : Nat :=
  vmSkipGo (prog.drop pc) pc

mutual

/-- `execute` of `src/vm.rs`: run instructions from the cursor until the
stream ends (`Ok`) or an `EndSection` returns to the caller, threading
the output buffer and the value stack (top at the head, mirroring the
`Vec`'s last element).  The result carries the buffer, the cursor
position on return, and the stack; `none` is fuel exhaustion, and an
`unwrap` of an empty stack (unreachable for compiled programs, whose
stack always holds the root) is also modelled as `none`. -/
def vmExec (prog : List Instr) : Nat → Nat → String → List RValue →
    Option (Except VmError (String × Nat × List RValue))
  | 0, _, _, _ => none
  | fuel + 1, pc, buf, stack =>
    match prog.get? pc with
    | none => some (.ok (buf, pc, stack))
    | some (.pushStr s) => vmExec prog fuel (pc + 1) (buf ++ s) stack
    | some (.pushVar p) =>
      match stack with
      | [] => none
      | top :: _ =>
        match reflectPath top p with
        | .ok v => vmExec prog fuel (pc + 1) buf (v :: stack)
        | .error e => some (.error e)
    | some .writeVar =>
      match stack with
      | [] => none
      | top :: rest =>
        match vmWriteValue buf top with
        | .ok buf' => vmExec prog fuel (pc + 1) buf' rest
        | .error e => some (.error e)
    | some .endSection => some (.ok (buf, pc + 1, stack))
    | some (.startSection p) =>
      match stack with
      | [] => none
      | top :: _ =>
        match top with
        | .vEnum _ vn _ =>
          if vn = p then
            match vmExec prog fuel (pc + 1) buf stack with
            | some (.ok (buf', pc', stack')) => vmExec prog fuel pc' buf' stack'
            | other => other
          else vmExec prog fuel (vmSkip prog (pc + 1)) buf stack
        | _ =>
          match reflectPath top p with
          | .error e => some (.error e)
          | .ok v =>
            match v with
            | .vTuple _ fs => vmIterCont prog fuel (pc + 1) buf stack fs
            | .vList _ items => vmIterCont prog fuel (pc + 1) buf stack items
            | .vArray _ items => vmIterCont prog fuel (pc + 1) buf stack items
            | .vMap _ entries =>
              vmIterCont prog fuel (pc + 1) buf stack (entries.map Prod.fst)
            | _ => some (.error (.unsupportedSectionVar v.typeName))
  termination_by structural fuel _ _ _ => fuel

/-- `execute_iter` followed by the resumption of the outer `execute`
loop: each item is pushed, the cursor reset to the body start, the body
executed, and the item popped; afterwards the outer loop continues from
wherever the last nested `execute` returned (the body start itself when
the iterator was empty — the cursor is not advanced past the body). -/
def vmIterCont (prog : List Instr) : Nat → Nat → String → List RValue →
    List RValue → Option (Except VmError (String × Nat × List RValue))
  | 0, _, _, _, _ => none
  | f + 1, startPos, buf, stack, items =>
    match vmIter prog f startPos startPos buf stack items with
    | some (.ok (buf', pc', stack')) => vmExec prog f pc' buf' stack'
    | other => other
  termination_by structural fuel _ _ _ _ => fuel

/-- The loop of `execute_iter`: threading the cursor reached by the most
recent nested `execute` (initially the body start). -/
def vmIter (prog : List Instr) : Nat → Nat → Nat → String → List RValue →
    List RValue → Option (Except VmError (String × Nat × List RValue))
  | _, _, curPc, buf, stack, [] => some (.ok (buf, curPc, stack))
  | 0, _, _, _, _, _ :: _ => none
  | f + 1, startPos, _, buf, stack, item :: items =>
    match vmExec prog f startPos buf (item :: stack) with
    | some (.ok (buf', pc', stack')) =>
      vmIter prog f startPos pc' buf' stack'.tail items
    | other => other
  termination_by structural fuel _ _ _ _ _ => fuel

end

/-- `execute_to` of `src/vm.rs`: execute the program from the start with
the root value as the sole stack entry, returning the buffer. -/
def executeTo (fuel : Nat) (prog : List Instr) (root : RValue) :
    Option (Except VmError String) :=
  match vmExec prog fuel 0 "" [root] with
  | some (.ok (buf, _, _)) => some (.ok buf)
  | some (.error e) => some (.error e)
  | none => none

/-! ## The `valuable`-based scope-stack renderer (`src/render.rs`)

`src/render.rs` is the renderer iteration with an explicit scope stack:
a `Vec<Value>` seeded with the root, innermost value last, pushed into by
sections.  It compiles against the earlier `parse.rs` iteration whose
`Field` carries `This`, `Named` and `Index` selectors and whose
`Variable`/`Section` parts hold a `Vec<Field>` path directly (that
iteration is not under `src/`; the shapes are fixed by `render.rs`'s own
pattern matches).  `valuable::Value` is modelled by `VValue`; visiting a
value calls `visit_value`, visiting a `Structable`/`Enumerable` calls
`visit_named_fields` or `visit_unnamed_fields` with the (variant's)
fields, a `Mappable` calls `visit_entry` per entry, a `Tuplable`
`visit_unnamed_fields`. -/

/-- A path selector of the `render.rs` AST iteration. -/
inductive VField where
  | this
  | named (s : String)
  | index (i : Nat)
deriving DecidableEq, Repr

/-- A template part of the `render.rs` AST iteration (keyword-clashing
constructor names primed as before). -/
inductive VPart where
  | text (s : String)
  | variable' (path : List VField)
  | section' (path : List VField) (parts : List VPart)
  | invertedSection (path : List VField) (parts : List VPart)
  | include' (name : String)
  | comment
deriving Repr

mutual

/-- The fields of a `Structable` or `Enumerable`: named or positional. -/
inductive VFields where
  | named (fields : List (String × VValue))
  | unnamed (fields : List VValue)

/-- A `valuable::Value`.  `int` stands for the numeric families
(`I8..I128`, `U8..U128`, `Isize`/`Usize`), whose `write!("{}")` arms in
`Variable::render_value` are identical; `unit` is `Value::Unit`. -/
inductive VValue where
  | str (s : String)
  | char (c : Char)
  | bool (b : Bool)
  | int (n : Int)
  | unit
  | structable (fields : VFields)
  | enumerable (variantName : String) (fields : VFields)
  | tuplable (fields : List VValue)
  | listable (items : List VValue)
  | mappable (entries : List (VValue × VValue))
end

/-- `Variable::render_value` of `src/render.rs`: the text a terminal
path match writes, `some` exactly when it returns `Ok(true)`.  A string
is HTML-escaped directly; chars, bools and numbers are displayed into a
buffer and the buffer HTML-escaped; every other shape writes nothing and
reports `Ok(false)` (letting the scope-stack fallback continue). -/
def vRenderValue : VValue → Option String
  | .str s => some (escapeHtml s)
  | .char c => some (escapeHtml (String.singleton c))
  | .bool b => some (escapeHtml (if b then "true" else "false"))
  | .int n => some (escapeHtml (toString n))
  | _ => none

mutual

/-- `Variable`'s visitation of one scope value (`visit_value`): the
returned pair is the text written and the final `render_result`. -/
def visitVar (path : List VField) (v : VValue) : String × Bool :=
  if path = [VField.this] then
    match vRenderValue v with
    | some s => (s, true)
    | none => ("", false)
  else
    match v with
    | .structable (.named fs) => visitVarNamed path fs
    | .structable (.unnamed fs) => visitVarUnnamed path fs
    | .mappable entries => visitVarEntries path ("", false) entries
    | .enumerable vn fs =>
      if path.length > 1 then
        match path with
        | .named n :: rest =>
          if n = vn then
            match fs with
            | .named nfs => visitVarNamed rest nfs
            | .unnamed ufs => visitVarUnnamed rest ufs
          else ("", false)
        | _ => ("", false)
      else
        match fs with
        | .named nfs => visitVarNamed path nfs
        | .unnamed ufs => visitVarUnnamed path ufs
    | .tuplable fs => visitVarUnnamed path fs
    | _ => ("", false)
  termination_by (sizeOf v, 0)

/-- `Variable::handle_value`: a one-selector path renders the value, a
longer path recurses into it with the tail. -/
def visitVarHandle (path : List VField) (v' : VValue) : String × Bool :=
  match path with
  | [_] =>
    match vRenderValue v' with
    | some s => (s, true)
    | none => ("", false)
  | _ :: r :: rest => visitVar (r :: rest) v'
  | [] => ("", false)
  termination_by (sizeOf v', 1)

/-- `Variable::visit_named_fields`: `get_by_name` on the first selector
(first match), then `handle_value`. -/
def visitVarNamed (path : List VField) : List (String × VValue) → String × Bool
  | [] => ("", false)
  | (k, v') :: rest =>
    match path with
    | .named n :: _ =>
      if k = n then visitVarHandle path v' else visitVarNamed path rest
    | _ => ("", false)
  termination_by fs => (sizeOf fs, 0)

/-- `Variable::visit_unnamed_fields`: `values.get(i)` on the first
selector's index, then `handle_value`. -/
def visitVarUnnamed (path : List VField) (fs : List VValue) : String × Bool :=
  match path with
  | .index i :: _ =>
    match h : fs.get? i with
    | some v' => visitVarHandle path v'
    | none => ("", false)
  | _ => ("", false)
  termination_by (sizeOf fs, 0)
  decreasing_by
    have hm : v' ∈ fs := List.get?_mem h
    have := List.sizeOf_lt_of_mem hm
    simp only [Prod.lex_def]
    omega

/-- `Variable::visit_entry`, once per map entry in order: a string key
equal to the first selector's name triggers `handle_value`, whose write
appends to the accumulated output and whose result overwrites the
accumulated `render_result`. -/
def visitVarEntries (path : List VField) (acc : String × Bool) :
    List (VValue × VValue) → String × Bool
  | [] => acc
  | (k, v') :: rest =>
    match path, k with
    | .named n :: _, .str key =>
      if n = key then
        let (o, r) := visitVarHandle path v'
        visitVarEntries path (acc.1 ++ o, r) rest
      else visitVarEntries path acc rest
    | _, _ => visitVarEntries path acc rest
  termination_by es => (sizeOf es, 0)

end

/-- The `Variable` arm of `render_part`: try each scope from innermost
(stack top, the list's last element — here the head of the reversed
stack) outward, stopping at the first whose visit reports success. -/
def varLoop (path : List VField) : List VValue → String
  | [] => ""
  | v :: outer =>
    let (o, r) := visitVar path v
    if r then o else o ++ varLoop path outer

/-- A template of the `render.rs` iteration. -/
structure VTemplate where
  parts : List VPart

/-- The registry map for the `render.rs` iteration. -/
def VTemplates := List (String × VTemplate)

/-- Registry lookup. -/
def lookupVTemplate (name : String) : VTemplates → Option VTemplate
  | ([] : List (String × VTemplate)) => none
  | (k, t) :: rest => if k = name then some t else lookupVTemplate name rest

/-! The `Section`/`InvertedSection` visitors of `src/render.rs` hold a
clone of the renderer (its template map and scope stack) and the section
body, and render the body through `Renderer::render_parts`.  The model
passes that capability as the continuation `renderBody`, applied to the
scope stack the body must be rendered against; the visitors themselves
then recurse only through the focused value. -/

mutual

/-- `Section::visit_value`: dispatch on the first selector and the
focused value, in the source's arm order — structables visit their
fields; an enum whose variant name equals a named first selector renders
the body once with the enum pushed; mappables visit their entries;
tuplables their positional fields; anything else does nothing.  (An
empty path would index out of bounds in Rust; parsed paths are never
empty.) -/
def sectionVisit (renderBody : List VValue → String) :
    List VField → List VValue → VValue → String
  | path, stack, v =>
    match v with
    | .structable (.named fs) => sectionNamed renderBody path stack fs
    | .structable (.unnamed fs) => sectionUnnamed renderBody path stack fs
    | .enumerable vn _ =>
      match path with
      | .named n :: _ => if n = vn then renderBody (stack ++ [v]) else ""
      | _ => ""
    | .mappable es => sectionEntries renderBody path stack es
    | .tuplable fs => sectionUnnamed renderBody path stack fs
    | _ => ""
  termination_by _ _ v => (2 * sizeOf v, 1)

/-- `Section::visit_named_fields`: `get_by_name` on the first selector
(first match), then `handle_value`. -/
def sectionNamed (renderBody : List VValue → String) :
    List VField → List VValue → List (String × VValue) → String
  | _, _, [] => ""
  | path, stack, (k, v') :: rest =>
    match path with
    | .named n :: _ =>
      if k = n then sectionHandle renderBody path stack v'
      else sectionNamed renderBody path stack rest
    | _ => ""
  termination_by _ _ fs => (2 * sizeOf fs + 1, 0)

/-- `Section::visit_unnamed_fields`: `values.get(i)` on the first
selector, then `handle_value` (the search loop realises the positional
`get`). -/
def sectionUnnamed (renderBody : List VValue → String) :
    List VField → List VValue → List VValue → String
  | path, stack, fs =>
    match path with
    | .index i :: _ => sectionUnnamedGo renderBody i path stack fs
    | _ => ""
  termination_by _ _ fs => (2 * sizeOf fs + 1, 1)

/-- The positional search behind `Section::visit_unnamed_fields`. -/
def sectionUnnamedGo (renderBody : List VValue → String) :
    Nat → List VField → List VValue → List VValue → String
  | _, _, _, [] => ""
  | i, path, stack, v' :: rest =>
    if i = 0 then sectionHandle renderBody path stack v'
    else sectionUnnamedGo renderBody (i - 1) path stack rest
  termination_by _ _ _ fs => (2 * sizeOf fs + 1, 0)

/-- `Section::visit_entry` per map entry in order: a string key equal to
a named first selector triggers `handle_value`, the writes
concatenating. -/
def sectionEntries (renderBody : List VValue → String) :
    List VField → List VValue → List (VValue × VValue) → String
  | _, _, [] => ""
  | path, stack, (k, v') :: rest =>
    let hit :=
      match path, k with
      | .named n :: _, .str key =>
        if n = key then sectionHandle renderBody path stack v' else ""
      | _, _ => ""
    hit ++ sectionEntries renderBody path stack rest
  termination_by _ _ es => (2 * sizeOf es + 1, 0)

/-- `Section::handle_value`: a one-selector path classifies and renders
the value; a longer path pushes the value onto the stack and re-visits
it with the path's tail. -/
def sectionHandle (renderBody : List VValue → String) :
    List VField → List VValue → VValue → String
  | path, stack, v' =>
    match path with
    | [_] => sectionRenderValue renderBody stack v'
    | _ :: r :: rest => sectionVisit renderBody (r :: rest) (stack ++ [v']) v'
    | [] => ""
  termination_by _ _ v' => (2 * sizeOf v' + 2, 0)

/-- `Section::render_value`: a listable iterates (`ListSection`), `true`
renders the body once with the stack unchanged, `false` and `Unit` skip,
and any other value renders the body once with the value pushed as the
new innermost scope. -/
def sectionRenderValue (renderBody : List VValue → String) :
    List VValue → VValue → String
  | stack, v' =>
    match v' with
    | .listable items => listSection renderBody stack items
    | .bool true => renderBody stack
    | .bool false => ""
    | .unit => ""
    | _ => renderBody (stack ++ [v'])

/-- `ListSection::visit_value` per element: `Unit` elements are skipped,
every other element renders the body once with the element pushed. -/
def listSection (renderBody : List VValue → String) :
    List VValue → List VValue → String
  | _, [] => ""
  | stack, item :: rest =>
    (match item with
     | .unit => ""
     | _ => renderBody (stack ++ [item])) ++ listSection renderBody stack rest
  termination_by _ items => (2 * sizeOf items, 0)

end

/-- `InvertedSection::handle_value`: a one-selector path renders the
body when the (possibly absent) value is falsy
(`InvertedSection::render_parts`: absent, `false`, `Unit`, an empty
listable or an empty mappable — with the stack unchanged); a longer
path with a present value pushes it and delegates the tail to the
*positive* `Section` visitor; a longer path with an absent value does
nothing. -/
def invHandle (renderBody : List VValue → String) (path : List VField)
    (stack : List VValue) (value : Option VValue) : String :=
  match path, value with
  | [_], v? =>
    match v? with
    | none => renderBody stack
    | some (.bool false) => renderBody stack
    | some .unit => renderBody stack
    | some (.listable []) => renderBody stack
    | some (.mappable []) => renderBody stack
    | some _ => ""
  | _ :: r :: rest, some v' =>
    sectionVisit renderBody (r :: rest) (stack ++ [v']) v'
  | _, _ => ""

/-- The first-match search of `get_by_name` feeding
`InvertedSection::handle_value` (absence included). -/
def invNamedGo (renderBody : List VValue → String) (n : String)
    (path : List VField) (stack : List VValue) :
    List (String × VValue) → String
  | [] => invHandle renderBody path stack none
  | (k, v') :: rest =>
    if k = n then invHandle renderBody path stack (some v')
    else invNamedGo renderBody n path stack rest

/-- `InvertedSection::visit_named_fields`: `get_by_name` on the first
selector (possibly absent), then `handle_value`. -/
def invNamed (renderBody : List VValue → String) (path : List VField)
    (stack : List VValue) (fields : List (String × VValue)) : String :=
  match path with
  | .named n :: _ => invNamedGo renderBody n path stack fields
  | _ => ""

/-- The positional `get` feeding `InvertedSection::handle_value`
(absence included). -/
def invUnnamedGo (renderBody : List VValue → String) (i : Nat)
    (path : List VField) (stack : List VValue) : List VValue → String
  | [] => invHandle renderBody path stack none
  | v' :: rest =>
    if i = 0 then invHandle renderBody path stack (some v')
    else invUnnamedGo renderBody (i - 1) path stack rest

/-- `InvertedSection::visit_unnamed_fields`: `values.get(i)` on the
first selector (possibly absent), then `handle_value`. -/
def invUnnamed (renderBody : List VValue → String) (path : List VField)
    (stack : List VValue) (fs : List VValue) : String :=
  match path with
  | .index i :: _ => invUnnamedGo renderBody i path stack fs
  | _ => ""

/-- `InvertedSection::visit_value`: only structables are inspected;
their fields are visited. -/
def invVisit (renderBody : List VValue → String) (path : List VField)
    (stack : List VValue) (v : VValue) : String :=
  match v with
  | .structable (.named fs) => invNamed renderBody path stack fs
  | .structable (.unnamed fs) => invUnnamed renderBody path stack fs
  | _ => ""

mutual

/-- `Renderer::render_parts` of `src/render.rs`: render each part in
order against the scope stack (innermost value last), concatenating the
written text.  Partial (`Include`) expansion — the one unbounded
recursion, through the template map — is the `expand` capability,
supplied by `expandVInclude` below. -/
def renderPartsVGo (expand : String → List VValue → String) :
    List VPart → List VValue → String
  | [], _ => ""
  | p :: rest, stack =>
    renderPartVGo expand p stack ++ renderPartsVGo expand rest stack

/-- `Renderer::render_part`: one part.  A `Variable` walks the stack
from innermost to outermost; a `Section`/`InvertedSection` visits only
the innermost value (`self.stack.last()`), rendering its body through
the continuation; an `Include` renders the named template against the
unchanged stack. -/
def renderPartVGo (expand : String → List VValue → String) :
    VPart → List VValue → String
  | .text s, _ => s
  | .variable' path, stack => varLoop path stack.reverse
  | .section' path body, stack =>
    match stack.getLast? with
    | some last =>
      sectionVisit (fun st => renderPartsVGo expand body st) path stack last
    | none => ""
  | .invertedSection path body, stack =>
    match stack.getLast? with
    | some last =>
      invVisit (fun st => renderPartsVGo expand body st) path stack last
    | none => ""
  | .include' name, stack => expand name stack
  | .comment, _ => ""

end

/-- The `Part::Include` arm of `render_part`: look the partial up (an
unknown name renders nothing) and render its parts against the
unchanged stack; the fuel bounds the include chain, the one source of
unbounded recursion, a fuel-out rendering nothing. -/
def expandVInclude (tpls : VTemplates) : Nat → String → List VValue → String
  | 0, _, _ => ""
  | fuel + 1, name, stack =>
    match lookupVTemplate name tpls with
    | some t => renderPartsVGo (expandVInclude tpls fuel) t.parts stack
    | none => ""

/-- `render_parts` with the include chain bounded by `fuel`. -/
def renderPartsV (tpls : VTemplates) (fuel : Nat) (parts : List VPart)
    (stack : List VValue) : String :=
  renderPartsVGo (expandVInclude tpls fuel) parts stack

/-- One part, include chains bounded by `fuel`. -/
def renderPartV (tpls : VTemplates) (fuel : Nat) (p : VPart)
    (stack : List VValue) : String :=
  renderPartVGo (expandVInclude tpls fuel) p stack


/-- `Renderer::render` of `src/render.rs`: look the template up and
render its parts against the stack seeded with the root value; an
unknown name renders nothing and succeeds. -/
def renderV (tpls : VTemplates) (fuel : Nat) (name : String) (root : VValue) :
    String :=
  match lookupVTemplate name tpls with
  | some t => renderPartsV tpls fuel t.parts [root]
  | none => ""

/-! ## Helper lemmas -/

/-- Appending to the empty string is the identity. -/
theorem strEmptyAppend (s : String) : "" ++ s = s := by
  cases s
  rfl

/-- Appending the empty string is the identity. -/
theorem strAppendEmpty (s : String) : s ++ "" = s := by
  cases s
  simp [String.append]

/-- The sequence-section iteration characterised through `mapM`: the
body renderer is applied to every element in order and the outputs are
concatenated. -/
theorem renderEachGo_mapM (f : RValue → Option String) (items : List RValue) :
    renderEachGo f items = (items.mapM' f).map concatAll := by
  induction items with
  | nil => rfl
  | cons i is ih =>
    cases hfi : f i with
    | none => simp [renderEachGo, hfi, List.mapM']
    | some s =>
      cases his : is.mapM' f with
      | none => simp [renderEachGo, hfi, List.mapM', his, ih]
      | some outs => simp [renderEachGo, hfi, List.mapM', his, ih, concatAll]

/-- A `Variable` visit through named fields misses when no field bears
the first selector's name. -/
theorem visitVarNamed_miss (n : String) (rest : List VField)
    (fields : List (String × VValue)) (hmiss : ∀ kv ∈ fields, kv.1 ≠ n) :
    visitVarNamed (VField.named n :: rest) fields = ("", false) := by
  induction fields with
  | nil => simp [visitVarNamed]
  | cons kv tl ih =>
    obtain ⟨k, v⟩ := kv
    have hk : k ≠ n := hmiss (k, v) (by simp)
    simp only [visitVarNamed, if_neg hk]
    exact ih fun kv hm => hmiss kv (List.mem_cons_of_mem _ hm)

/-- A `Section` visit through named fields renders nothing when no field
bears the first selector's name. -/
theorem sectionNamed_miss (rb : List VValue → String) (n : String)
    (rest : List VField) (stack : List VValue)
    (fields : List (String × VValue)) (hmiss : ∀ kv ∈ fields, kv.1 ≠ n) :
    sectionNamed rb (VField.named n :: rest) stack fields = "" := by
  induction fields with
  | nil => simp [sectionNamed]
  | cons kv tl ih =>
    obtain ⟨k, v⟩ := kv
    have hk : k ≠ n := hmiss (k, v) (by simp)
    simp only [sectionNamed, if_neg hk]
    exact ih fun kv hm => hmiss kv (List.mem_cons_of_mem _ hm)

/-- An `InvertedSection` search through named fields reaches the absent
case when no field bears the searched name. -/
theorem invNamedGo_miss (rb : List VValue → String) (n : String)
    (path : List VField) (stack : List VValue)
    (fields : List (String × VValue)) (hmiss : ∀ kv ∈ fields, kv.1 ≠ n) :
    invNamedGo rb n path stack fields = invHandle rb path stack none := by
  induction fields with
  | nil => simp [invNamedGo]
  | cons kv tl ih =>
    obtain ⟨k, v⟩ := kv
    have hk : k ≠ n := hmiss (k, v) (by simp)
    simp only [invNamedGo, if_neg hk]
    exact ih fun kv hm => hmiss kv (List.mem_cons_of_mem _ hm)

/-! ## Claims -/

/-- C1, counterexample: a `Variable` resolving to a named-field
aggregate does not fail the render — `renderPart` succeeds and the
stringified placeholder naming the value's type is written to the
output, contradicting the claim that the render call fails with an
error and that no stringified form of the value is written. -/
theorem c1_counterexample :
    renderPart [] 1 (Part.variable' Access.this)
        (RValue.vStruct "Foo" [("a", RValue.vInt 1)]) =
      some "UNSUPPORTED_VARIABLE_VALUE(Foo)" := by
  rfl

/-- C1, amended: in the tree-walking renderer a `Variable` resolving to
a structured value with no scalar rendering (a named-field aggregate, a
map, or a struct-variant tagged union) succeeds and writes the
placeholder naming the offending value's type to the output; only the
VM backend's `write_value` fails with an `UnsupportedType` error and
writes nothing. -/
theorem c1_amended (ty vn : String) (fs vfs : List (String × RValue))
    (es : List (RValue × RValue)) (hopt : isOption ty = false) :
    renderValue (RValue.vStruct ty fs) = unsupportedPlaceholder ty ∧
    renderValue (RValue.vMap ty es) = unsupportedPlaceholder ty ∧
    renderValue (RValue.vEnum ty vn (RVariant.structV vfs)) =
      unsupportedPlaceholder ty ∧
    vmWriteValue "" (RValue.vStruct ty fs) =
      Except.error (VmError.unsupportedType ty) := by
  refine ⟨rfl, rfl, ?_, rfl⟩
  show (if isOption ty then "" else unsupportedPlaceholder ty) = _
  rw [hopt]
  simp

theorem c1_amended_witness :
    isOption "Foo" = false ∧
    (renderValue (RValue.vStruct "Foo" [("a", RValue.vInt 1)]) =
        unsupportedPlaceholder "Foo" ∧
      renderValue (RValue.vMap "Foo" []) = unsupportedPlaceholder "Foo" ∧
      renderValue (RValue.vEnum "Foo" "Bar" (RVariant.structV [])) =
        unsupportedPlaceholder "Foo" ∧
      vmWriteValue "" (RValue.vStruct "Foo" [("a", RValue.vInt 1)]) =
        Except.error (VmError.unsupportedType "Foo")) :=
  ⟨by decide, c1_amended "Foo" "Bar" [("a", RValue.vInt 1)] [] [] (by decide)⟩

/-- C2, counterexample: on a source whose tail is an unterminated tag,
`parse` neither aborts nor reports a position — it returns the
best-effort prefix `[Text "hello "]`, silently dropping the rest; on a
source that is nothing but an invalid construct it returns the empty
part list. -/
theorem c2_counterexample :
    templetParse "hello \x7b\x7bname" = [Part.text "hello "] ∧
    templetParse "\x7b\x7bname" = [] := by
  exact ⟨rfl, rfl⟩

/-- C2, amended: a construct matching no grammar rule does not abort
parsing with an error: the `many0` part loop stops at it, returning the
parts parsed so far and leaving the offending input unconsumed, which
the `parse` entry point then silently discards — there is no error
channel and no positional diagnostic. -/
theorem c2_amended (fuel : Nat) (input : List Char)
    (h : parsePartF fuel input = none) :
    many0Parts (fuel + 1) input = ([], input) := by
  simp [many0Parts, h]

theorem c2_amended_witness :
    parsePartF 20 ("\x7b\x7bname".data) = none ∧
    many0Parts 21 ("\x7b\x7bname".data) = ([], "\x7b\x7bname".data) :=
  ⟨rfl, c2_amended 20 ("\x7b\x7bname".data) rfl⟩

/-- C4, counterexample: a mismatched close tag is not a parse failure of
the `parse` entry point — `parse` succeeds and silently recovers with
the empty part list, while the matched form yields the `Section`
node. -/
theorem c4_counterexample :
    templetParse "\x7b\x7b#items\x7d\x7d\x7b\x7b/other\x7d\x7d" = [] ∧
    templetParse "\x7b\x7b#items\x7d\x7d\x7b\x7b/items\x7d\x7d" =
      [Part.section' (Access.path [RField.named "items"]) []] := by
  exact ⟨rfl, rfl⟩

/-- C4, amended: `parse_section` (and `parse_inverted_section`) yields a
`Section` (respectively `InvertedSection`) node exactly when the closing
access path equals the opening access path by structural equality; a
mismatch makes `parse_section` itself fail, but the public `parse`
backtracks over that failure and silently drops the construct instead of
reporting a parse error. -/
theorem c4_amended (fuel : Nat) (input r1 rest r3 : List Char)
    (ps : List Part) (a e : Access) :
    (startTag sectionOpen input = some (a, r1) →
      many0Parts fuel r1 = (ps, rest) →
      tagEnd rest = some (e, r3) →
      (a = e →
        parseSectionF (fuel + 1) input = some (Part.section' a ps, r3)) ∧
      (a ≠ e → parseSectionF (fuel + 1) input = none)) ∧
    (startTag invertedOpen input = some (a, r1) →
      many0Parts fuel r1 = (ps, rest) →
      tagEnd rest = some (e, r3) →
      (a = e →
        parseInvertedSectionF (fuel + 1) input =
          some (Part.invertedSection a ps, r3)) ∧
      (a ≠ e → parseInvertedSectionF (fuel + 1) input = none)) := by
  constructor
  · intro h1 h2 h3
    constructor
    · intro heq
      subst heq
      simp [parseSectionF, h1, h2, h3]
    · intro hne
      simp [parseSectionF, h1, h2, h3, hne]
  · intro h1 h2 h3
    constructor
    · intro heq
      subst heq
      simp [parseInvertedSectionF, h1, h2, h3]
    · intro hne
      simp [parseInvertedSectionF, h1, h2, h3, hne]

theorem c4_amended_witness :
    parseSectionF 6 ("\x7b\x7b#items\x7d\x7d\x7b\x7b/items\x7d\x7d".data) =
      some (Part.section' (Access.path [RField.named "items"]) [], []) := by
  have h :=
    (c4_amended 5 ("\x7b\x7b#items\x7d\x7d\x7b\x7b/items\x7d\x7d".data)
        ("\x7b\x7b/items\x7d\x7d".data) ("\x7b\x7b/items\x7d\x7d".data) []
        [] (Access.path [RField.named "items"])
        (Access.path [RField.named "items"])).1 rfl rfl rfl
  exact h.1 rfl

/-- C7: a `Variable` resolving to a string writes its HTML escape, in
which every character is escaped independently and each of the
characters less-than, greater-than, ampersand and quote becomes its
entity; the same string wrapped in `Unescaped` is written verbatim. -/
theorem c7_escaping (tpls : Templates) (fuel : Nat) (a : Access)
    (data : RValue) (s : String) :
    (getPath data a = some (RValue.vStr s) →
      renderPart tpls fuel (Part.variable' a) data = some (escapeHtml s)) ∧
    (getPath data a = some (RValue.vUnescaped s) →
      renderPart tpls fuel (Part.variable' a) data = some s) ∧
    escapeHtml s = concatAll (s.data.map escapeChar) ∧
    escapeChar '<' = "&lt;" ∧ escapeChar '>' = "&gt;" ∧
    escapeChar '&' = "&amp;" ∧ escapeChar '"' = "&quot;" := by
  refine ⟨?_, ?_, rfl, rfl, rfl, rfl, rfl⟩
  · intro h
    simp only [renderPart, renderPartGo, h]
    rfl
  · intro h
    simp only [renderPart, renderPartGo, h]
    rfl

theorem c7_escaping_witness :
    renderPart [] 0 (Part.variable' Access.this) (RValue.vStr "a<b") =
      some "a&lt;b" ∧
    renderPart [] 0 (Part.variable' Access.this) (RValue.vUnescaped "a<b") =
      some "a<b" := by
  constructor
  · have h := (c7_escaping [] 0 Access.this (RValue.vStr "a<b") "a<b").1 rfl
    rw [h]
    rfl
  · have h :=
      (c7_escaping [] 0 Access.this (RValue.vUnescaped "a<b") "a<b").2.1 rfl
    rw [h]

/-- C8, counterexample: rendering an unknown template name does not
fail — it succeeds producing empty output. -/
theorem c8_counterexample :
    render [] 0 "missing" (RValue.vBool true) = some "" := by
  rfl

/-- C8, amended: both render entry points (`Templates::render` and
`Templates::render_to_string` delegate to `Renderer::render`) silently
render nothing and succeed when the template name is not present in the
registry. -/
theorem c8_amended (tpls : Templates) (fuel : Nat) (name : String)
    (data : RValue) (h : lookupTemplate name tpls = none) :
    render tpls fuel name data = some "" := by
  simp [render, h]

theorem c8_amended_witness :
    lookupTemplate "m" [] = none ∧
    render [] 3 "m" (RValue.vInt 5) = some "" :=
  ⟨rfl, c8_amended [] 3 "m" (RValue.vInt 5) rfl⟩

/-- C10: a `Variable` resolving to a tagged union (not an `Option`)
holding a unit variant renders successfully, writing the variant's name
converted to kebab-case. -/
theorem c10_unit_variant_kebab (tpls : Templates) (fuel : Nat) (a : Access)
    (data : RValue) (ty vn : String) (hopt : isOption ty = false)
    (hres : getPath data a = some (RValue.vEnum ty vn RVariant.unit)) :
    renderPart tpls fuel (Part.variable' a) data = some (toKebab vn) := by
  simp only [renderPart, renderPartGo, hres]
  show some (if isOption ty then _ else _) = _
  rw [hopt]
  simp

theorem c10_unit_variant_kebab_witness :
    isOption "UnitEnum" = false ∧
    renderPart [] 0 (Part.variable' Access.this)
        (RValue.vEnum "UnitEnum" "FooBar" RVariant.unit) = some "foo-bar" := by
  constructor
  · decide
  · have h :=
      c10_unit_variant_kebab [] 0 Access.this
        (RValue.vEnum "UnitEnum" "FooBar" RVariant.unit) "UnitEnum" "FooBar"
        (by decide) rfl
    rw [h]
    rfl

/-- C5: a `Section` whose path resolves to a sequence of `n` elements
renders its body exactly once per element in order, each time with that
element as the (innermost) data value, the outputs concatenating; an
empty sequence contributes no output, and the `InvertedSection` over the
same path renders its body instead, against the unchanged data. -/
theorem c5_sequence_sections (tpls : Templates) (fuel : Nat) (a : Access)
    (body : List Part) (ty : String) (items : List RValue) (data : RValue)
    (hres : getPath data a = some (RValue.vList ty items)) :
    renderPart tpls fuel (Part.section' a body) data =
      (items.mapM' (renderParts tpls fuel body)).map concatAll ∧
    (items = [] →
      renderPart tpls fuel (Part.section' a body) data = some "" ∧
      renderPart tpls fuel (Part.invertedSection a body) data =
        renderParts tpls fuel body data) := by
  constructor
  · simp only [renderPart, renderPartGo, hres]
    rw [renderEachGo_mapM]
    rfl
  · intro hnil
    subst hnil
    constructor
    · simp only [renderPart, renderPartGo, hres]
      rfl
    · simp only [renderPart, renderPartGo, hres]
      rfl

theorem c5_sequence_sections_witness :
    getPath (RValue.vList "v" [RValue.vInt 1, RValue.vInt 2]) Access.this =
      some (RValue.vList "v" [RValue.vInt 1, RValue.vInt 2]) ∧
    renderPart [] 0 (Part.section' Access.this [Part.variable' Access.this])
        (RValue.vList "v" [RValue.vInt 1, RValue.vInt 2]) =
      ([RValue.vInt 1, RValue.vInt 2].mapM'
          (renderParts [] 0 [Part.variable' Access.this])).map concatAll :=
  ⟨rfl,
    (c5_sequence_sections [] 0 Access.this [Part.variable' Access.this] "v"
        [RValue.vInt 1, RValue.vInt 2]
        (RValue.vList "v" [RValue.vInt 1, RValue.vInt 2]) rfl).1⟩

/-- C6, counterexample: a `Section` over a positional aggregate (tuple
struct) does not render its body once with the value pushed — it
iterates the body once per field (here producing the two fields'
renders), unlike the once-with-pushed-scope rendering, which would have
produced the unsupported-value placeholder. -/
theorem c6_counterexample :
    renderPart [] 0 (Part.section' Access.this [Part.variable' Access.this])
        (RValue.vTupleStruct "D" [RValue.vInt 1, RValue.vInt 2]) =
      some "12" ∧
    renderParts [] 0 [Part.variable' Access.this]
        (RValue.vTupleStruct "D" [RValue.vInt 1, RValue.vInt 2]) =
      some "UNSUPPORTED_VARIABLE_VALUE(D)" ∧
    (some "12" : Option String) ≠ some "UNSUPPORTED_VARIABLE_VALUE(D)" :=
  ⟨rfl, rfl, by decide⟩

/-- C6, amended: a `Section` whose path resolves to a named-field
aggregate, a map, a non-bool non-string scalar, a non-empty string, a
non-`Option` tagged union, or a present optional's inner value renders
its body exactly once with that value as the new innermost (and only)
scope; but a positional aggregate is iterated like a sequence, once per
field, and an empty string skips the body. -/
theorem c6_amended (tpls : Templates) (fuel : Nat) (a : Access)
    (body : List Part) (data : RValue) (ty vn s : String)
    (fs : List (String × RValue)) (ufs : List RValue)
    (es : List (RValue × RValue)) (x : RValue) (n : Int) :
    (getPath data a = some (RValue.vStruct ty fs) →
      renderPart tpls fuel (Part.section' a body) data =
        renderParts tpls fuel body (RValue.vStruct ty fs)) ∧
    (getPath data a = some (RValue.vMap ty es) →
      renderPart tpls fuel (Part.section' a body) data =
        renderParts tpls fuel body (RValue.vMap ty es)) ∧
    (getPath data a = some (RValue.vInt n) →
      renderPart tpls fuel (Part.section' a body) data =
        renderParts tpls fuel body (RValue.vInt n)) ∧
    (getPath data a = some (RValue.vStr s) → s ≠ "" →
      renderPart tpls fuel (Part.section' a body) data =
        renderParts tpls fuel body (RValue.vStr s)) ∧
    (getPath data a = some (RValue.vEnum ty vn (RVariant.structV fs)) →
      isOption ty = false →
      renderPart tpls fuel (Part.section' a body) data =
        renderParts tpls fuel body
          (RValue.vEnum ty vn (RVariant.structV fs))) ∧
    (getPath data a = some (RValue.vEnum ty "Some" (RVariant.tuple [x])) →
      isOption ty = true →
      renderPart tpls fuel (Part.section' a body) data =
        renderParts tpls fuel body x) ∧
    (getPath data a = some (RValue.vTupleStruct ty ufs) →
      renderPart tpls fuel (Part.section' a body) data =
        renderEach tpls fuel body ufs) ∧
    (getPath data a = some (RValue.vStr "") →
      renderPart tpls fuel (Part.section' a body) data = some "") := by
  refine ⟨?_, ?_, ?_, ?_, ?_, ?_, ?_, ?_⟩
  · intro h
    simp only [renderPart, renderPartGo, h]
    rfl
  · intro h
    simp only [renderPart, renderPartGo, h]
    rfl
  · intro h
    simp only [renderPart, renderPartGo, h]
    rfl
  · intro h hs
    simp only [renderPart, renderPartGo, h, if_neg hs]
    rfl
  · intro h hopt
    simp only [renderPart, renderPartGo, h, hopt]
    rfl
  · intro h hopt
    simp only [renderPart, renderPartGo, h, hopt, optionValue]
    rfl
  · intro h
    simp only [renderPart, renderPartGo, h]
    rfl
  · intro h
    simp only [renderPart, renderPartGo, h]
    rfl

theorem c6_amended_witness :
    getPath (RValue.vStruct "S" [("a", RValue.vStr "x")]) Access.this =
      some (RValue.vStruct "S" [("a", RValue.vStr "x")]) ∧
    renderPart [] 0 (Part.section' Access.this [Part.text "T"])
        (RValue.vStruct "S" [("a", RValue.vStr "x")]) =
      renderParts [] 0 [Part.text "T"]
        (RValue.vStruct "S" [("a", RValue.vStr "x")]) :=
  ⟨rfl,
    (c6_amended [] 0 Access.this [Part.text "T"]
        (RValue.vStruct "S" [("a", RValue.vStr "x")]) "S" "v" "s"
        [("a", RValue.vStr "x")] [] [] (RValue.vInt 0) 0).1 rfl⟩

/-- C3: in the scope-stack renderer, a `Variable` whose first path
segment misses in the innermost scope falls back outward — rendering
with the innermost scope present equals rendering against the remaining
outer stack — whereas a `Section`'s condition path is resolved only in
the innermost scope (a miss there renders nothing, whatever the outer
scopes hold) and an `InvertedSection`'s condition likewise never falls
back (a miss in the innermost scope renders its body even when an outer
scope carries the field). -/
theorem c3_scoping (tpls : VTemplates) (fuel : Nat) (n : String)
    (rest : List VField) (body : List VPart) (stack : List VValue)
    (fields : List (String × VValue)) (hmiss : ∀ kv ∈ fields, kv.1 ≠ n) :
    (renderPartV tpls fuel (VPart.variable' (VField.named n :: rest))
        (stack ++ [VValue.structable (VFields.named fields)]) =
      renderPartV tpls fuel (VPart.variable' (VField.named n :: rest))
        stack) ∧
    (renderPartV tpls fuel (VPart.section' [VField.named n] body)
        (stack ++ [VValue.structable (VFields.named fields)]) = "") ∧
    (renderPartV tpls fuel (VPart.invertedSection [VField.named n] body)
        (stack ++ [VValue.structable (VFields.named fields)]) =
      renderPartsV tpls fuel body
        (stack ++ [VValue.structable (VFields.named fields)])) := by
  have hvisit :
      visitVar (VField.named n :: rest)
        (VValue.structable (VFields.named fields)) = ("", false) := by
    have hne : (VField.named n :: rest) ≠ [VField.this] := by simp
    simp only [visitVar, if_neg hne]
    exact visitVarNamed_miss n rest fields hmiss
  refine ⟨?_, ?_, ?_⟩
  · simp only [renderPartV, renderPartVGo, List.reverse_append,
      List.reverse_singleton, List.singleton_append, varLoop, hvisit]
    simp [strEmptyAppend]
  · simp only [renderPartV, renderPartVGo, List.getLast?_concat]
    simp only [sectionVisit]
    exact sectionNamed_miss _ n [] _ fields hmiss
  · simp only [renderPartV, renderPartVGo, List.getLast?_concat]
    simp only [invVisit, invNamed]
    rw [invNamedGo_miss _ n _ _ fields hmiss]
    rfl

theorem c3_scoping_witness :
    (∀ kv ∈ [("a", VValue.str "x")], Prod.fst kv ≠ "b") ∧
    ((renderPartV [] 0 (VPart.variable' [VField.named "b"])
        ([VValue.structable (VFields.named [("b", VValue.str "OUTER")])] ++
          [VValue.structable (VFields.named [("a", VValue.str "x")])]) =
      renderPartV [] 0 (VPart.variable' [VField.named "b"])
        [VValue.structable (VFields.named [("b", VValue.str "OUTER")])]) ∧
    (renderPartV [] 0 (VPart.section' [VField.named "b"] [VPart.text "B"])
        ([VValue.structable (VFields.named [("b", VValue.str "OUTER")])] ++
          [VValue.structable (VFields.named [("a", VValue.str "x")])]) = "") ∧
    (renderPartV [] 0
        (VPart.invertedSection [VField.named "b"] [VPart.text "B"])
        ([VValue.structable (VFields.named [("b", VValue.str "OUTER")])] ++
          [VValue.structable (VFields.named [("a", VValue.str "x")])]) =
      renderPartsV [] 0 [VPart.text "B"]
        ([VValue.structable (VFields.named [("b", VValue.str "OUTER")])] ++
          [VValue.structable (VFields.named [("a", VValue.str "x")])]))) :=
  ⟨by decide,
    c3_scoping [] 0 "b" [] [VPart.text "B"]
      [VValue.structable (VFields.named [("b", VValue.str "OUTER")])]
      [("a", VValue.str "x")] (by decide)⟩

/-- C9, counterexample: the two backends do not produce the same output
for the same template and value — the VM writes a string variable raw
while the tree-walking renderer HTML-escapes it. -/
theorem c9_counterexample :
    executeTo 5 (compileExprs [Expr.var "str"])
        (RValue.vStruct "Props" [("str", RValue.vStr "<")]) =
      some (Except.ok "<") ∧
    renderParts [] 0 [Part.variable' (Access.path [RField.named "str"])]
        (RValue.vStruct "Props" [("str", RValue.vStr "<")]) =
      some "&lt;" ∧
    ("<" : String) ≠ "&lt;" :=
  ⟨rfl, rfl, by decide⟩

/-- C9, amended: the backends' contracts differ.  For a variable
resolving to a string, the VM writes the raw string while the
tree-walking renderer writes its HTML escape, so the compiled bytecode's
output equals the tree renderer's output exactly when HTML escaping is
the identity on the string (the backends also differ elsewhere: the VM
errors on values the tree renderer renders, such as bool sections and
structured variables). -/
theorem c9_amended (s : String) :
    executeTo 5 (compileExprs [Expr.var "str"])
        (RValue.vStruct "Props" [("str", RValue.vStr s)]) =
      some (Except.ok s) ∧
    renderParts [] 0 [Part.variable' (Access.path [RField.named "str"])]
        (RValue.vStruct "Props" [("str", RValue.vStr s)]) =
      some (escapeHtml s) ∧
    (executeTo 5 (compileExprs [Expr.var "str"])
        (RValue.vStruct "Props" [("str", RValue.vStr s)]) =
        some (Except.ok (escapeHtml s)) ↔
      s = escapeHtml s) := by
  have h1 :
      executeTo 5 (compileExprs [Expr.var "str"])
        (RValue.vStruct "Props" [("str", RValue.vStr s)]) =
      some (Except.ok ("" ++ s)) := rfl
  have h2 :
      renderParts [] 0 [Part.variable' (Access.path [RField.named "str"])]
        (RValue.vStruct "Props" [("str", RValue.vStr s)]) =
      some (escapeHtml s ++ "") := rfl
  refine ⟨?_, ?_, ?_⟩
  · rw [h1, strEmptyAppend]
  · rw [h2, strAppendEmpty]
  · rw [h1, strEmptyAppend]
    simp

end Templet
